import Mathlib

/-
  Verification of the signature-to-schema compiler of the AutoAgent
  repository (src/autoagent/util.py): the type resolver `get_type_info`,
  the record schema extraction it performs for pydantic models,
  dataclasses and TypedDicts, and the top-level `function_to_json`
  signature compiler.

  The embedding is shallow: Python dicts become ordered key/value lists
  (`JVal.obj`), the closed set of annotation shapes the resolver
  dispatches on becomes the inductive `PyType`, and a Python
  `raise ValueError(msg)` becomes `Except.error msg`.
-/

namespace AutoAgent

/-- JSON-like values. Python dicts are embedded as ordered association
lists, mirroring insertion order, which is the order the source builds
its literals in. -/
inductive JVal : Type where
  | str (s : String) : JVal
  | int (n : Int) : JVal
  | bool (b : Bool) : JVal
  | null : JVal
  | arr (elems : List JVal) : JVal
  | obj (entries : List (String × JVal)) : JVal
deriving Repr

/-- The schema a pydantic `BaseModel` subclass exports through
`model_json_schema()`: its `properties`, `required` and `$defs` members
(`util.py` lines 255-261). The bodies are opaque JSON data as far as
`get_type_info` is concerned. -/
structure PydanticSchema where
  properties : List (String × JVal)
  required : List String
  defs : List (String × JVal)
deriving Repr

/-- The closed set of annotation shapes `get_type_info` dispatches on:
the five base types of the `type_map` built in `function_to_json`
(`util.py` lines 345-353), `List[...]`, `Dict[...]`, `Union[...]`,
pydantic `BaseModel` subclasses, dataclasses, classes carrying
`__annotations__` (TypedDicts), and anything else (`unknown`).
A dataclass field is `(name, type, hasDefault, hasFactory)`, recording
whether `field.default` resp. `field.default_factory` differs from
`MISSING`. A TypedDict carries its `__annotations__` in declaration
order and, when the attribute is present, its `__required_keys__`. -/
inductive PyType : Type where
  | pyStr : PyType
  | pyInt : PyType
  | pyFloat : PyType
  | pyBool : PyType
  | pyNone : PyType
  | pyList (elem : PyType) : PyType
  | pyDict (key value : PyType) : PyType
  | pyUnion (members : List PyType) : PyType
  | pydantic (schema : PydanticSchema) : PyType
  | dataclass (fields : List (String × PyType × Bool × Bool)) : PyType
  | typedDict (annots : List (String × PyType)) (requiredKeys : Option (List String)) : PyType
  | unknown : PyType
deriving Repr

/-- Boolean form of the source's `key_type != str` comparison
(`util.py` line 220): true exactly on the `str` base type. -/
def isPyStr : PyType → Bool
  | .pyStr => true
  | _ => false

/-- Boolean form of the source's `arg != type(None)` comparison
(`util.py` line 241): true exactly on `NoneType`. -/
def isPyNone : PyType → Bool
  | .pyNone => true
  | _ => false

/-- The `type_map` passed to `get_type_info` by `function_to_json`
(`util.py` lines 345-353): str, int, float, bool and NoneType;
`list` and `dict` are commented out in the source. -/
def baseTypeMap : PyType → Option String
  | .pyStr => some "string"
  | .pyInt => some "integer"
  | .pyFloat => some "number"
  | .pyBool => some "boolean"
  | .pyNone => some "null"
  | _ => none

/-- The record test of the Dict branch (`util.py` lines 224-225):
`hasattr(value_type, "__annotations__") or issubclass(value_type, BaseModel)`.
Dataclasses, TypedDicts and pydantic models all carry `__annotations__`;
the base types, typing aliases and NoneType do not. -/
def isRecordLike : PyType → Bool
  | .pydantic _ => true
  | .dataclass _ => true
  | .typedDict _ _ => true
  | _ => false

/-- Split a character list at every occurrence of the separator,
keeping empty segments, exactly like Python's `str.split` with an
explicit one-character separator. The result is never empty. -/
def splitOnChar (sep : Char) : List Char → List (List Char)
  | [] => [[]]
  | c :: cs =>
      let rest := splitOnChar sep cs
      if c = sep then [] :: rest
      else
        match rest with
        | [] => [[c]]
        | seg :: segs => (c :: seg) :: segs

/-- The last `/`-separated segment of a reference path:
`prop_schema["$ref"].split("/")[-1]` of `util.py` line 266. The split
never produces an empty list, so the default is never used. -/
def lastSegment (path : String) : String :=
  String.mk ((splitOnChar '/' path.data).getLastD [])

example : lastSegment "#/$defs/A" = "A" := rfl
example : lastSegment "plain" = "plain" := rfl

/-- One step of the reference flattening loop of `util.py` lines
264-268: a property schema that directly carries a `$ref` key whose
last path segment names one of the shared definitions is replaced by
that definition's body, verbatim; every other property schema is left
unchanged. (Pydantic only ever exports string-valued `$ref` members.) -/
def inlineRef (defs : List (String × JVal)) (v : JVal) : JVal :=
  match v with
  | .obj entries =>
      match entries.lookup "$ref" with
      | some (.str path) =>
          match defs.lookup (lastSegment path) with
          | some body => body
          | none => v
      | _ => v
  | _ => v

/-- The `if definitions:` guarded flattening loop of `util.py` lines
262-268: when the exported schema has shared definitions, each property
is rewritten by `inlineRef`; each key is visited exactly once, so the
imperative in-place update is a map over the entries. -/
def flattenProps (defs : List (String × JVal)) (props : List (String × JVal)) : List (String × JVal) :=
  if defs.isEmpty then props
  else props.map fun kv => (kv.1, inlineRef defs kv.2)

/-- The pydantic branch of `get_type_info` (`util.py` lines 252-275). -/
def resolvePydantic (s : PydanticSchema) : JVal :=
  .obj [("type", .str "object"),
        ("properties", .obj (flattenProps s.defs s.properties)),
        ("required", .arr (s.required.map JVal.str)),
        ("additionalProperties", .bool false)]

mutual

/-- Embedding of `get_type_info(annotation, base_type_map)` of
`util.py` lines 199-330, at the `type_map` of `function_to_json`.
Branches in source order: base-type lookup, `List`, `Dict` (with the
non-string-key `ValueError` and the record-value collapse), `Union`
(members other than `NoneType` resolved in order; a single survivor is
returned directly, otherwise `oneOf`), pydantic models, dataclasses,
`__annotations__` carriers (TypedDicts), and the string fallback. -/
def get_type_info : PyType → Except String JVal
  | .pyStr => .ok (.obj [("type", .str "string")])
  | .pyInt => .ok (.obj [("type", .str "integer")])
  | .pyFloat => .ok (.obj [("type", .str "number")])
  | .pyBool => .ok (.obj [("type", .str "boolean")])
  | .pyNone => .ok (.obj [("type", .str "null")])
  | .pyList elem => do
      let items ← get_type_info elem
      pure (.obj [("type", .str "array"), ("items", items)])
  | .pyDict key value =>
      if !isPyStr key then
        .error "Dictionary keys must be strings"
      else if isRecordLike value then
        get_type_info value
      else do
        let v ← get_type_info value
        pure (.obj [("type", .str "object"), ("additionalProperties", v)])
  | .pyUnion members => do
      let ts ← resolveUnionMembers members
      match ts with
      | [t] => pure t
      | _ => pure (.obj [("oneOf", .arr ts)])
  | .pydantic s => .ok (resolvePydantic s)
  | .dataclass fs => do
      let props ← resolveFields fs
      pure (.obj [("type", .str "object"),
                  ("properties", .obj props),
                  ("required", .arr ((fs.filter fun f => !f.2.2.1 && !f.2.2.2).map fun f => JVal.str f.1)),
                  ("additionalProperties", .bool false)])
  | .typedDict annots reqKeys => do
      let props ← resolveAnnots annots
      pure (.obj [("type", .str "object"),
                  ("properties", .obj props),
                  ("required", .arr ((reqKeys.getD (annots.map Prod.fst)).map JVal.str)),
                  ("additionalProperties", .bool false)])
  | .unknown => .ok (.obj [("type", .str "string")])

/-- The Union comprehension of `util.py` line 241: resolve, in order,
every member that is not `NoneType`; the first failure propagates. -/
def resolveUnionMembers : List PyType → Except String (List JVal)
  | [] => .ok []
  | m :: ms =>
      if isPyNone m then
        resolveUnionMembers ms
      else do
        let t ← get_type_info m
        let ts ← resolveUnionMembers ms
        pure (t :: ts)

/-- The dataclass field loop of `util.py` lines 295-298, restricted to
the `properties` it builds: each field's type is resolved in
declaration order. -/
def resolveFields : List (String × PyType × Bool × Bool) → Except String (List (String × JVal))
  | [] => .ok []
  | (n, t, _d, _f) :: fs => do
      let j ← get_type_info t
      let rest ← resolveFields fs
      pure ((n, j) :: rest)

/-- The `__annotations__` loop of `util.py` lines 319-320: each value
type is resolved in declaration order. -/
def resolveAnnots : List (String × PyType) → Except String (List (String × JVal))
  | [] => .ok []
  | (k, t) :: rest => do
      let j ← get_type_info t
      let tail ← resolveAnnots rest
      pure ((k, j) :: tail)

end

example : get_type_info PyType.unknown = .ok (.obj [("type", .str "string")]) := rfl

example : get_type_info (.pyList .pyInt)
    = .ok (.obj [("type", .str "array"), ("items", .obj [("type", .str "integer")])]) := rfl

example : get_type_info (.pyUnion [.pyStr, .pyNone]) = .ok (.obj [("type", .str "string")]) := rfl

/-- One declared parameter of an introspected signature: its name, its
annotation, and whether `param.default` differs from `inspect._empty`. -/
structure Param where
  name : String
  ann : PyType
  hasDefault : Bool
deriving Repr

/-- A callable as `function_to_json` sees it: `func.__name__`,
`func.__doc__` (`none` embeds Python `None`), and the ordered view
`inspect.signature(func).parameters.values()`. -/
structure PyCallable where
  name : String
  docstring : Option String
  params : List Param
deriving Repr

/-- The `del param_info["additionalProperties"]` statement of `util.py`
line 391, as the pure removal of a top-level key from an object. -/
def eraseKey (k : String) (v : JVal) : JVal :=
  match v with
  | .obj entries => .obj (entries.filter fun kv => kv.1 != k)
  | _ => v

/-- The parameter loop of `util.py` lines 385-394: parameters named
`context_variables` are skipped; for every other parameter the
annotation is resolved once into `param_info`, that first copy is
pruned of a top-level `additionalProperties` key and then discarded,
and a second, fresh resolution is what is stored under the parameter's
name. -/
def compileParams : List Param → Except String (List (String × JVal))
  | [] => .ok []
  | p :: ps =>
      if p.name == "context_variables" then compileParams ps
      else do
        let paramInfo ← get_type_info p.ann
        let _pruned := eraseKey "additionalProperties" paramInfo
        let info ← get_type_info p.ann
        let rest ← compileParams ps
        pure ((p.name, info) :: rest)

/-- Embedding of `function_to_json(func)` of `util.py` lines 333-422:
the parameter loop above, the `required` comprehension over ALL
parameters lacking a default (`util.py` lines 398-402 — it does not
skip `context_variables`), and the descriptor assembly of lines
411-422 with `func.__doc__ or ""`. -/
def function_to_json (f : PyCallable) : Except String JVal := do
  let props ← compileParams f.params
  let req := (f.params.filter fun p => !p.hasDefault).map Param.name
  pure (.obj [("type", .str "function"),
              ("function", .obj
                [("name", .str f.name),
                 ("description", .str (f.docstring.getD "")),
                 ("parameters", .obj
                   [("type", .str "object"),
                    ("properties", .obj props),
                    ("required", .arr (req.map JVal.str))])])])

/-- Lookup of a top-level key of an object node. -/
def objLookup (j : JVal) (k : String) : Option JVal :=
  match j with
  | .obj entries => entries.lookup k
  | _ => none

/-- The `parameters` member of a compiled descriptor. -/
def descParameters (j : JVal) : Option JVal :=
  (objLookup j "function").bind fun f => objLookup f "parameters"

/-- The `parameters.required` member of a compiled descriptor. -/
def descRequired (j : JVal) : Option JVal :=
  (descParameters j).bind fun p => objLookup p "required"

/-- The `parameters.properties` member of a compiled descriptor. -/
def descProperties (j : JVal) : Option JVal :=
  (descParameters j).bind fun p => objLookup p "properties"

/-- The schema advertised for one named parameter of a descriptor. -/
def descParamSchema (j : JVal) (n : String) : Option JVal :=
  (descProperties j).bind fun p => objLookup p n

/-- The `function.name` member of a compiled descriptor. -/
def descName (j : JVal) : Option JVal :=
  (objLookup j "function").bind fun f => objLookup f "name"

/-- The `function.description` member of a compiled descriptor. -/
def descDescription (j : JVal) : Option JVal :=
  (objLookup j "function").bind fun f => objLookup f "description"

example :
    function_to_json ⟨"search", some "Searches.",
      [⟨"query", .pyStr, false⟩, ⟨"limit", .pyInt, true⟩]⟩
    = .ok (.obj [("type", .str "function"),
        ("function", .obj
          [("name", .str "search"),
           ("description", .str "Searches."),
           ("parameters", .obj
             [("type", .str "object"),
              ("properties", .obj
                [("query", .obj [("type", .str "string")]),
                 ("limit", .obj [("type", .str "integer")])]),
              ("required", .arr [.str "query"])])])]) := rfl

example :
    (function_to_json ⟨"f", none,
        [⟨"context_variables", .pyStr, false⟩, ⟨"query", .pyStr, false⟩]⟩).toOption.bind
      descRequired
    = some (.arr [.str "context_variables", .str "query"]) := rfl

/-! Generic facts about `Except` and effectful list traversal. -/

theorem ok_bind {α β : Type} (a : α) (f : α → Except String β) :
    (Except.ok a >>= f) = f a := rfl

theorem error_bind {α β : Type} (e : String) (f : α → Except String β) :
    (Except.error e >>= f : Except String β) = Except.error e := rfl

theorem pure_eq_ok {α : Type} (a : α) : (pure a : Except String α) = Except.ok a := rfl

/-- Resolve a list left to right, propagating the first failure: the
shape shared by the source's comprehensions and loops over member
lists, field lists and annotation maps. -/
def mapE {α β : Type} (f : α → Except String β) : List α → Except String (List β)
  | [] => .ok []
  | x :: xs => do
      let y ← f x
      let ys ← mapE f xs
      pure (y :: ys)

theorem mapE_ok_length {α β : Type} (f : α → Except String β) :
    ∀ (l : List α) (res : List β), mapE f l = .ok res → res.length = l.length := by
  intro l
  induction l with
  | nil =>
      intro res h
      simp [mapE] at h
      simp [← h]
  | cons x xs ih =>
      intro res h
      cases hx : f x with
      | error e => simp [mapE, hx, error_bind] at h
      | ok y =>
          cases hxs : mapE f xs with
          | error e => simp [mapE, hx, hxs, ok_bind, error_bind] at h
          | ok ys =>
              simp [mapE, hx, hxs, ok_bind, pure_eq_ok] at h
              simp [← h, ih ys hxs]

/-! Characterizations of the resolver's helper loops. -/

theorem isPyStr_iff (t : PyType) : isPyStr t = true ↔ t = PyType.pyStr := by
  cases t <;> simp [isPyStr]

theorem isPyNone_iff (t : PyType) : isPyNone t = true ↔ t = PyType.pyNone := by
  cases t <;> simp [isPyNone]

/-- The Union comprehension filters out `NoneType` first and resolves
the surviving members in declaration order. -/
theorem resolveUnionMembers_eq (ms : List PyType) :
    resolveUnionMembers ms = mapE get_type_info (ms.filter fun m => !isPyNone m) := by
  induction ms with
  | nil => rfl
  | cons m ms ih =>
      cases hm : isPyNone m
      · simp [resolveUnionMembers, hm, List.filter_cons, mapE, ih]
      · simp [resolveUnionMembers, hm, List.filter_cons, ih]

/-- The non-string-key `ValueError` of `util.py` lines 220-221, raised
before the value annotation is even looked at. -/
theorem dict_key_error (k v : PyType) (hk : k ≠ PyType.pyStr) :
    get_type_info (.pyDict k v) = .error "Dictionary keys must be strings" := by
  have hks : isPyStr k = false := by
    cases k <;> first | rfl | exact absurd rfl hk
  simp [get_type_info, hks]

/-- A union whose non-`NoneType` members reduce to a single annotation
resolves to that annotation's own node (the optional collapse,
`util.py` lines 242-243). -/
theorem union_single_collapse (ms : List PyType) (t : PyType)
    (hf : (ms.filter fun m => !isPyNone m) = [t]) :
    get_type_info (.pyUnion ms) = get_type_info t := by
  cases ht : get_type_info t with
  | error e =>
      simp [get_type_info, resolveUnionMembers_eq, hf, mapE, ht, error_bind]
  | ok j =>
      simp [get_type_info, resolveUnionMembers_eq, hf, mapE, ht, ok_bind, pure_eq_ok]

/-- A union with at least two surviving members resolves to a `oneOf`
node listing the members' resolutions in declaration order, without
deduplication (`util.py` line 244). -/
theorem union_oneOf (ms : List PyType)
    (h2 : 2 ≤ ((ms.filter fun m => !isPyNone m)).length) :
    get_type_info (.pyUnion ms) =
      (mapE get_type_info (ms.filter fun m => !isPyNone m)) >>= fun ts =>
        pure (.obj [("oneOf", .arr ts)]) := by
  cases hts : mapE get_type_info (ms.filter fun m => !isPyNone m) with
  | error e =>
      simp [get_type_info, resolveUnionMembers_eq, hts, error_bind]
  | ok ts =>
      have hlen : ts.length = (ms.filter fun m => !isPyNone m).length :=
        mapE_ok_length _ _ _ hts
      rcases ts with _ | ⟨t1, _ | ⟨t2, rest⟩⟩
      · rw [← hlen] at h2
        simp at h2
      · rw [← hlen] at h2
        simp at h2
      · simp [get_type_info, resolveUnionMembers_eq, hts, ok_bind, pure_eq_ok]

/-- The dataclass field loop zips the declared field names with the
resolutions of the declared field types, in declaration order. -/
theorem resolveFields_eq :
    ∀ (fs : List (String × PyType × Bool × Bool)) (js : List JVal),
      mapE get_type_info (fs.map fun f => f.2.1) = .ok js →
      resolveFields fs = .ok ((fs.map Prod.fst).zip js) := by
  intro fs
  induction fs with
  | nil =>
      intro js h
      simp [mapE] at h
      simp [resolveFields, ← h]
  | cons f fs ih =>
      obtain ⟨n, t, d, fac⟩ := f
      intro js h
      cases ht : get_type_info t with
      | error e => simp [mapE, ht, error_bind] at h
      | ok j =>
          cases hfs : mapE get_type_info (fs.map fun f => f.2.1) with
          | error e => simp [mapE, ht, hfs, ok_bind, error_bind] at h
          | ok js2 =>
              simp [mapE, ht, hfs, ok_bind, pure_eq_ok] at h
              simp [resolveFields, ht, ok_bind, ih js2 hfs, pure_eq_ok, ← h]

/-- The `__annotations__` loop zips the declared keys with the
resolutions of the declared value types, in declaration order. -/
theorem resolveAnnots_eq :
    ∀ (annots : List (String × PyType)) (js : List JVal),
      mapE get_type_info (annots.map Prod.snd) = .ok js →
      resolveAnnots annots = .ok ((annots.map Prod.fst).zip js) := by
  intro annots
  induction annots with
  | nil =>
      intro js h
      simp [mapE] at h
      simp [resolveAnnots, ← h]
  | cons kv rest ih =>
      obtain ⟨k, t⟩ := kv
      intro js h
      cases ht : get_type_info t with
      | error e => simp [mapE, ht, error_bind] at h
      | ok j =>
          cases hrest : mapE get_type_info (rest.map Prod.snd) with
          | error e => simp [mapE, ht, hrest, ok_bind, error_bind] at h
          | ok js2 =>
              simp [mapE, ht, hrest, ok_bind, pure_eq_ok] at h
              simp [resolveAnnots, ht, ok_bind, ih js2 hrest, pure_eq_ok, ← h]

/-! Where the resolver can fail.

The resolver only ever raises on a `Dict` annotation whose key is not
`str`. Keys are compared against `str` but never resolved, and a
pydantic model's exported schema is plain data, so recursion into an
annotation reaches exactly: sequence element types, mapping value
types, union members, dataclass field types and TypedDict value
types. `goodKeys` is true iff no mapping reachable that way has a
non-string key. -/

mutual

/-- True iff no `Dict` annotation the resolver recurses into carries a
non-string key. -/
def goodKeys : PyType → Bool
  | .pyList e => goodKeys e
  | .pyDict k v => isPyStr k && goodKeys v
  | .pyUnion ms => goodKeysList ms
  | .dataclass fs => goodKeysFields fs
  | .typedDict annots _ => goodKeysAnnots annots
  | _ => true

def goodKeysList : List PyType → Bool
  | [] => true
  | m :: ms => goodKeys m && goodKeysList ms

def goodKeysFields : List (String × PyType × Bool × Bool) → Bool
  | [] => true
  | (_, t, _, _) :: fs => goodKeys t && goodKeysFields fs

def goodKeysAnnots : List (String × PyType) → Bool
  | [] => true
  | (_, t) :: rest => goodKeys t && goodKeysAnnots rest

end

mutual

/-- On every annotation whose reachable mapping keys are all `str`,
the resolver succeeds. -/
theorem get_type_info_total : ∀ a : PyType, goodKeys a = true → ∃ j, get_type_info a = .ok j
  | .pyStr, _ => ⟨_, rfl⟩
  | .pyInt, _ => ⟨_, rfl⟩
  | .pyFloat, _ => ⟨_, rfl⟩
  | .pyBool, _ => ⟨_, rfl⟩
  | .pyNone, _ => ⟨_, rfl⟩
  | .pyList e, h => by
      obtain ⟨j, hj⟩ := get_type_info_total e (by simpa [goodKeys] using h)
      simp [get_type_info, hj, ok_bind, pure_eq_ok]
  | .pyDict k v, h => by
      rw [goodKeys, Bool.and_eq_true] at h
      obtain ⟨j, hj⟩ := get_type_info_total v h.2
      cases hrec : isRecordLike v
      · simp [get_type_info, h.1, hrec, hj, ok_bind, pure_eq_ok]
      · exact ⟨j, by simp [get_type_info, h.1, hrec, hj]⟩
  | .pyUnion ms, h => by
      obtain ⟨ts, hts⟩ := resolveUnionMembers_total ms (by simpa [goodKeys] using h)
      rcases ts with _ | ⟨t1, _ | ⟨t2, rest⟩⟩
      · simp [get_type_info, hts, ok_bind, pure_eq_ok]
      · exact ⟨t1, by simp [get_type_info, hts, ok_bind, pure_eq_ok]⟩
      · simp [get_type_info, hts, ok_bind, pure_eq_ok]
  | .pydantic s, _ => ⟨_, rfl⟩
  | .dataclass fs, h => by
      obtain ⟨props, hp⟩ := resolveFields_total fs (by simpa [goodKeys] using h)
      simp [get_type_info, hp, ok_bind, pure_eq_ok]
  | .typedDict annots req, h => by
      obtain ⟨props, hp⟩ := resolveAnnots_total annots (by simpa [goodKeys] using h)
      simp [get_type_info, hp, ok_bind, pure_eq_ok]
  | .unknown, _ => ⟨_, rfl⟩

theorem resolveUnionMembers_total :
    ∀ ms : List PyType, goodKeysList ms = true → ∃ ts, resolveUnionMembers ms = .ok ts
  | [], _ => ⟨[], rfl⟩
  | m :: ms, h => by
      rw [goodKeysList, Bool.and_eq_true] at h
      obtain ⟨ts, hts⟩ := resolveUnionMembers_total ms h.2
      cases hn : isPyNone m
      · obtain ⟨t, ht⟩ := get_type_info_total m h.1
        simp [resolveUnionMembers, hn, ht, hts, ok_bind, pure_eq_ok]
      · exact ⟨ts, by simp [resolveUnionMembers, hn, hts]⟩

theorem resolveFields_total :
    ∀ fs : List (String × PyType × Bool × Bool), goodKeysFields fs = true →
      ∃ props, resolveFields fs = .ok props
  | [], _ => ⟨[], rfl⟩
  | (n, t, d, fac) :: fs, h => by
      rw [goodKeysFields, Bool.and_eq_true] at h
      obtain ⟨props, hp⟩ := resolveFields_total fs h.2
      obtain ⟨j, hj⟩ := get_type_info_total t h.1
      simp [resolveFields, hj, hp, ok_bind, pure_eq_ok]

theorem resolveAnnots_total :
    ∀ annots : List (String × PyType), goodKeysAnnots annots = true →
      ∃ props, resolveAnnots annots = .ok props
  | [], _ => ⟨[], rfl⟩
  | (k, t) :: rest, h => by
      rw [goodKeysAnnots, Bool.and_eq_true] at h
      obtain ⟨props, hp⟩ := resolveAnnots_total rest h.2
      obtain ⟨j, hj⟩ := get_type_info_total t h.1
      simp [resolveAnnots, hj, hp, ok_bind, pure_eq_ok]

end

/-- Contrapositive of totality: a failure can only come from a bad
mapping key somewhere the resolver recurses. -/
theorem error_implies_bad_key (a : PyType) (e : String)
    (h : get_type_info a = .error e) : goodKeys a = false := by
  cases hg : goodKeys a
  · rfl
  · obtain ⟨j, hj⟩ := get_type_info_total a hg
    rw [hj] at h
    cases h

/-! Characterizations of the signature compiler's parameter loop. -/

/-- The advertised `properties` carry exactly the non-reserved
parameter names, in declaration order. -/
theorem compileParams_keys :
    ∀ (ps : List Param) (l : List (String × JVal)), compileParams ps = .ok l →
      l.map Prod.fst = (ps.filter fun p => p.name != "context_variables").map Param.name := by
  intro ps
  induction ps with
  | nil =>
      intro l h
      simp [compileParams] at h
      simp [← h]
  | cons p ps ih =>
      intro l h
      cases hn : (p.name == "context_variables")
      · cases hg : get_type_info p.ann with
        | error e => simp [compileParams, hn, hg, error_bind] at h
        | ok i =>
            cases hrest : compileParams ps with
            | error e => simp [compileParams, hn, hg, hrest, ok_bind, error_bind] at h
            | ok rest =>
                simp [compileParams, hn, hg, hrest, ok_bind, pure_eq_ok] at h
                have hne : p.name ≠ "context_variables" := by simpa using hn
                simp [← h, List.filter_cons, hne, ih rest hrest]
      · simp [compileParams, hn] at h
        have hq : p.name = "context_variables" := by simpa using hn
        simp [List.filter_cons, hq, ih l h]

/-- The schema stored for a non-reserved parameter is the result of a
fresh resolution of its annotation. -/
theorem compileParams_lookup :
    ∀ (ps : List Param) (l : List (String × JVal)) (p : Param) (s : JVal),
      compileParams ps = .ok l → p ∈ ps → p.name ≠ "context_variables" →
      (ps.map Param.name).Nodup →
      get_type_info p.ann = .ok s →
      l.lookup p.name = some s := by
  intro ps
  induction ps with
  | nil =>
      intro l p s _h hp
      simp at hp
  | cons q ps ih =>
      intro l p s h hp hpn hnd hres
      simp only [List.map_cons, List.nodup_cons] at hnd
      cases hn : (q.name == "context_variables")
      · cases hg : get_type_info q.ann with
        | error e => simp [compileParams, hn, hg, error_bind] at h
        | ok i =>
            cases hrest : compileParams ps with
            | error e => simp [compileParams, hn, hg, hrest, ok_bind, error_bind] at h
            | ok rest =>
                simp [compileParams, hn, hg, hrest, ok_bind, pure_eq_ok] at h
                rcases List.mem_cons.mp hp with hEq | hp2
                · subst hEq
                  rw [hres] at hg
                  cases hg
                  simp [← h, List.lookup]
                · have hne : (p.name == q.name) = false := by
                    simp only [beq_eq_false_iff_ne, ne_eq]
                    intro hEq
                    exact hnd.1 (hEq ▸ List.mem_map_of_mem Param.name hp2)
                  simp [← h, List.lookup, hne]
                  exact ih rest p s hrest hp2 hpn hnd.2 hres
      · simp [compileParams, hn] at h
        have hq : q.name = "context_variables" := by
          simpa using hn
        rcases List.mem_cons.mp hp with hEq | hp2
        · exact absurd (hEq ▸ hq) hpn
        · exact ih l p s h hp2 hpn hnd.2 hres

/-- Inversion of a successful compilation: the descriptor is the
literal object assembled at `util.py` lines 411-422, around the
properties produced by the parameter loop. -/
theorem function_to_json_ok (f : PyCallable) (j : JVal)
    (h : function_to_json f = .ok j) :
    ∃ props, compileParams f.params = .ok props ∧
      j = .obj [("type", .str "function"),
        ("function", .obj
          [("name", .str f.name),
           ("description", .str (f.docstring.getD "")),
           ("parameters", .obj
             [("type", .str "object"),
              ("properties", .obj props),
              ("required", .arr (((f.params.filter fun p => !p.hasDefault).map Param.name).map JVal.str))])])] := by
  cases hc : compileParams f.params with
  | error e =>
      rw [function_to_json, hc] at h
      exact absurd h (by simp [error_bind])
  | ok props =>
      rw [function_to_json, hc] at h
      refine ⟨props, rfl, ?_⟩
      simpa [ok_bind, pure_eq_ok] using h.symm

/-! The claims. -/

/-- C2: resolving a Union resolves every member that is not the null
scalar, recursively and in declaration order; exactly one survivor is
returned directly (so `Union[T, null]` resolves exactly like `T`), and
two or more survivors yield `oneOf` over the resolved members in
declaration order, without deduplication (witnessed by the concrete
`Union[str, int]` instance). -/
theorem claim2_union_resolution :
    (∀ (ms : List PyType) (t : PyType), (ms.filter fun m => !isPyNone m) = [t] →
        get_type_info (.pyUnion ms) = get_type_info t) ∧
    (∀ ms : List PyType, 2 ≤ ((ms.filter fun m => !isPyNone m)).length →
        get_type_info (.pyUnion ms) =
          (mapE get_type_info (ms.filter fun m => !isPyNone m)) >>= fun ts =>
            pure (.obj [("oneOf", .arr ts)])) ∧
    (∀ t : PyType, t ≠ PyType.pyNone →
        get_type_info (.pyUnion [t, .pyNone]) = get_type_info t) ∧
    get_type_info (.pyUnion [.pyStr, .pyInt])
      = .ok (.obj [("oneOf",
          .arr [.obj [("type", .str "string")], .obj [("type", .str "integer")]])]) := by
  refine ⟨union_single_collapse, union_oneOf, ?_, rfl⟩
  intro t ht
  apply union_single_collapse
  have hnt : isPyNone t = false := by
    cases t <;> first | rfl | exact absurd rfl ht
  simp [List.filter_cons, hnt, isPyNone]

/-- Witness for C2 at concrete inputs: `Union[int, null]` collapses to
the integer scalar. -/
theorem claim2_union_resolution_witness :
    get_type_info (.pyUnion [.pyInt, .pyNone]) = get_type_info PyType.pyInt :=
  claim2_union_resolution.2.2.1 PyType.pyInt (by simp)

/-- C3: a Mapping annotation with a non-string key makes the resolver
fail with the `ValueError` of `util.py` line 221, for every value
annotation; the error propagates through `function_to_json` (the
`except KeyError` there does not catch a `ValueError`); and this bad
key is the only source of failure — whenever the resolver fails, some
mapping it recursed into had a non-string key. -/
theorem claim3_mapping_key_error :
    (∀ k v : PyType, k ≠ PyType.pyStr →
        get_type_info (.pyDict k v) = .error "Dictionary keys must be strings") ∧
    (∀ (n pn : String) (d : Option String) (k v : PyType) (b : Bool),
        k ≠ PyType.pyStr → pn ≠ "context_variables" →
        function_to_json ⟨n, d, [⟨pn, .pyDict k v, b⟩]⟩
          = .error "Dictionary keys must be strings") ∧
    (∀ (a : PyType) (e : String), get_type_info a = .error e → goodKeys a = false) := by
  refine ⟨dict_key_error, ?_, error_implies_bad_key⟩
  intro n pn d k v b hk hpn
  have hbeq : (pn == "context_variables") = false := by simpa using hpn
  simp [function_to_json, compileParams, hbeq, dict_key_error k v hk, error_bind]

/-- Witness for C3 at concrete inputs: `Dict[int, str]` fails, also
through the signature compiler, and the failure test is negative on
that annotation. -/
theorem claim3_mapping_key_error_witness :
    get_type_info (.pyDict .pyInt .pyStr) = .error "Dictionary keys must be strings" ∧
    function_to_json ⟨"f", none, [⟨"d", .pyDict .pyInt .pyStr, false⟩]⟩
      = .error "Dictionary keys must be strings" ∧
    goodKeys (.pyDict .pyInt .pyStr) = false :=
  ⟨claim3_mapping_key_error.1 PyType.pyInt PyType.pyStr (by simp),
   claim3_mapping_key_error.2.1 "f" "d" none PyType.pyInt PyType.pyStr false (by simp) (by simp),
   claim3_mapping_key_error.2.2 (.pyDict .pyInt .pyStr) "Dictionary keys must be strings"
     (claim3_mapping_key_error.1 PyType.pyInt PyType.pyStr (by simp))⟩

/-- C4: a string-keyed Mapping whose value annotation is a record kind
resolves exactly like the value annotation itself (the collapse of
`util.py` line 226, no `additionalProperties` wrapper); with any
non-record value annotation it resolves to the generic
`additionalProperties` object of lines 229-232. -/
theorem claim4_mapping_collapse :
    (∀ v : PyType, isRecordLike v = true →
        get_type_info (.pyDict .pyStr v) = get_type_info v) ∧
    (∀ (v : PyType) (j : JVal), isRecordLike v = false → get_type_info v = .ok j →
        get_type_info (.pyDict .pyStr v)
          = .ok (.obj [("type", .str "object"), ("additionalProperties", j)])) := by
  constructor
  · intro v hv
    simp [get_type_info, isPyStr, hv]
  · intro v j hv hj
    simp [get_type_info, isPyStr, hv, hj, ok_bind, pure_eq_ok]

/-- Witness for C4 at concrete inputs: `Dict[str, PlainRecord{x:int}]`
collapses to the record's own schema; `Dict[str, int]` gets the
`additionalProperties` wrapper. -/
theorem claim4_mapping_collapse_witness :
    get_type_info (.pyDict .pyStr (.dataclass [("x", .pyInt, false, false)]))
      = get_type_info (.dataclass [("x", .pyInt, false, false)]) ∧
    get_type_info (.pyDict .pyStr .pyInt)
      = .ok (.obj [("type", .str "object"),
          ("additionalProperties", .obj [("type", .str "integer")])]) :=
  ⟨claim4_mapping_collapse.1 (.dataclass [("x", .pyInt, false, false)]) rfl,
   claim4_mapping_collapse.2 PyType.pyInt (.obj [("type", .str "integer")]) rfl rfl⟩

/-- C5: a dataclass field is required iff it has neither a static
default nor a default-factory; a TypedDict's required set is its own
`__required_keys__` when present, else all keys; in both cases the
properties are the declared names, in declaration order, zipped with
the recursive resolutions of the declared types. The concrete instance
with fields `a` (no default) and `b` (default) yields required `[a]`. -/
theorem claim5_required_fields :
    (∀ (fs : List (String × PyType × Bool × Bool)) (js : List JVal),
        mapE get_type_info (fs.map fun f => f.2.1) = .ok js →
        get_type_info (.dataclass fs) = .ok (.obj
          [("type", .str "object"),
           ("properties", .obj ((fs.map Prod.fst).zip js)),
           ("required", .arr ((fs.filter fun f => !f.2.2.1 && !f.2.2.2).map fun f => JVal.str f.1)),
           ("additionalProperties", .bool false)])) ∧
    (∀ (annots : List (String × PyType)) (reqKeys : Option (List String)) (js : List JVal),
        mapE get_type_info (annots.map Prod.snd) = .ok js →
        get_type_info (.typedDict annots reqKeys) = .ok (.obj
          [("type", .str "object"),
           ("properties", .obj ((annots.map Prod.fst).zip js)),
           ("required", .arr ((reqKeys.getD (annots.map Prod.fst)).map JVal.str)),
           ("additionalProperties", .bool false)])) ∧
    get_type_info (.dataclass [("a", .pyInt, false, false), ("b", .pyInt, true, false)])
      = .ok (.obj
          [("type", .str "object"),
           ("properties", .obj [("a", .obj [("type", .str "integer")]),
                                ("b", .obj [("type", .str "integer")])]),
           ("required", .arr [.str "a"]),
           ("additionalProperties", .bool false)]) := by
  refine ⟨?_, ?_, rfl⟩
  · intro fs js h
    simp [get_type_info, resolveFields_eq fs js h, ok_bind, pure_eq_ok]
  · intro annots reqKeys js h
    simp [get_type_info, resolveAnnots_eq annots js h, ok_bind, pure_eq_ok]

/-- Witness for C5 at concrete inputs: one dataclass with a
factory-defaulted field, one TypedDict with an explicit required set. -/
theorem claim5_required_fields_witness :
    get_type_info (.dataclass [("a", .pyStr, false, true)])
      = .ok (.obj
          [("type", .str "object"),
           ("properties", .obj ([("a", JVal.obj [("type", .str "string")])])),
           ("required", .arr []),
           ("additionalProperties", .bool false)]) ∧
    get_type_info (.typedDict [("u", .pyStr), ("w", .pyInt)] (some ["u"]))
      = .ok (.obj
          [("type", .str "object"),
           ("properties", .obj ([("u", JVal.obj [("type", .str "string")]),
                                 ("w", JVal.obj [("type", .str "integer")])])),
           ("required", .arr [.str "u"]),
           ("additionalProperties", .bool false)]) :=
  ⟨claim5_required_fields.1 [("a", .pyStr, false, true)] [.obj [("type", .str "string")]] rfl,
   claim5_required_fields.2.1 [("u", .pyStr), ("w", .pyInt)] (some ["u"])
     [.obj [("type", .str "string")], .obj [("type", .str "integer")]] rfl⟩

/-- C6: the resolver is total away from bad mapping keys: on any
annotation whose reachable mapping keys are all string it succeeds,
and an annotation matching none of the dispatch cases resolves to the
string scalar without raising (`util.py` line 330). -/
theorem claim6_permissive_fallback :
    get_type_info PyType.unknown = .ok (.obj [("type", .str "string")]) ∧
    (∀ a : PyType, goodKeys a = true → ∃ j, get_type_info a = .ok j) :=
  ⟨rfl, get_type_info_total⟩

/-- Witness for C6 at a concrete input: a list of unions resolves. -/
theorem claim6_permissive_fallback_witness :
    ∃ j, get_type_info (.pyList (.pyUnion [.pyStr, .pyNone])) = .ok j :=
  claim6_permissive_fallback.2 (.pyList (.pyUnion [.pyStr, .pyNone])) rfl

/-- C1 fails on the code: for the callable `(context_variables, query)`
with neither parameter defaulted, the `required` comprehension of
`util.py` lines 398-402 runs over ALL parameters and does not skip the
reserved name, so the compiled descriptor's `required` is
`[context_variables, query]`, not `[query]` as the claim demands. -/
theorem claim1_counterexample :
    (function_to_json ⟨"f", none,
        [⟨"context_variables", PyType.pyStr, false⟩,
         ⟨"query", PyType.pyStr, false⟩]⟩).toOption.bind descRequired
      = some (.arr [.str "context_variables", .str "query"]) ∧
    ¬ ((function_to_json ⟨"f", none,
        [⟨"context_variables", PyType.pyStr, false⟩,
         ⟨"query", PyType.pyStr, false⟩]⟩).toOption.bind descRequired
      = some (.arr [.str "query"])) := by
  refine ⟨rfl, ?_⟩
  intro h
  rw [show (function_to_json ⟨"f", none,
      [⟨"context_variables", PyType.pyStr, false⟩,
       ⟨"query", PyType.pyStr, false⟩]⟩).toOption.bind descRequired
      = some (.arr [.str "context_variables", .str "query"]) from rfl] at h
  simp at h

/-- C1 (amended): `parameters.required` contains exactly the names of
ALL declared parameters lacking a default value — the reserved
`context_variables` parameter included, when it lacks one — while
`parameters.properties` does omit the reserved parameter. -/
theorem claim1_required_amended (f : PyCallable) (j : JVal)
    (h : function_to_json f = .ok j) :
    descRequired j
      = some (.arr (((f.params.filter fun p => !p.hasDefault).map Param.name).map JVal.str)) ∧
    ∃ props, descProperties j = some (.obj props) ∧
      props.map Prod.fst = (f.params.filter fun p => p.name != "context_variables").map Param.name := by
  obtain ⟨props, hc, rfl⟩ := function_to_json_ok f j h
  exact ⟨rfl, props, rfl, compileParams_keys f.params props hc⟩

/-- Witness for the amended C1 at the counterexample callable. -/
theorem claim1_required_amended_witness :
    descRequired ((function_to_json ⟨"f", none,
        [⟨"context_variables", PyType.pyStr, false⟩,
         ⟨"query", PyType.pyStr, false⟩]⟩).toOption.getD .null)
      = some (.arr [.str "context_variables", .str "query"]) ∧
    ∃ props,
      descProperties ((function_to_json ⟨"f", none,
          [⟨"context_variables", PyType.pyStr, false⟩,
           ⟨"query", PyType.pyStr, false⟩]⟩).toOption.getD .null)
        = some (.obj props) ∧
      props.map Prod.fst = ["query"] :=
  claim1_required_amended
    ⟨"f", none, [⟨"context_variables", PyType.pyStr, false⟩, ⟨"query", PyType.pyStr, false⟩]⟩
    ((function_to_json ⟨"f", none,
        [⟨"context_variables", PyType.pyStr, false⟩,
         ⟨"query", PyType.pyStr, false⟩]⟩).toOption.getD .null)
    rfl

/-- C7: the `search(query: str, limit: int = 10)` callable with
docstring `Searches.` compiles to exactly the descriptor of the
specification, and in general the descriptor carries the callable's
name and its docstring (or the empty string when it has none) under
the `function.name` and `function.description` keys. -/
theorem claim7_descriptor_assembly :
    function_to_json ⟨"search", some "Searches.",
        [⟨"query", .pyStr, false⟩, ⟨"limit", .pyInt, true⟩]⟩
      = .ok (.obj [("type", .str "function"),
          ("function", .obj
            [("name", .str "search"),
             ("description", .str "Searches."),
             ("parameters", .obj
               [("type", .str "object"),
                ("properties", .obj
                  [("query", .obj [("type", .str "string")]),
                   ("limit", .obj [("type", .str "integer")])]),
                ("required", .arr [.str "query"])])])]) ∧
    (∀ (f : PyCallable) (j : JVal), function_to_json f = .ok j →
        descName j = some (.str f.name) ∧
        descDescription j = some (.str (f.docstring.getD ""))) := by
  refine ⟨rfl, ?_⟩
  intro f j h
  obtain ⟨props, _hc, rfl⟩ := function_to_json_ok f j h
  exact ⟨rfl, rfl⟩

/-- Witness for C7's general part at a docstring-less callable. -/
theorem claim7_descriptor_assembly_witness :
    descName ((function_to_json ⟨"g", none, []⟩).toOption.getD .null) = some (.str "g") ∧
    descDescription ((function_to_json ⟨"g", none, []⟩).toOption.getD .null)
      = some (.str "") :=
  claim7_descriptor_assembly.2 ⟨"g", none, []⟩
    ((function_to_json ⟨"g", none, []⟩).toOption.getD .null) rfl

/-- C8: a validated record's schema is taken from its own export —
`properties` (after the one-level reference flattening) and the
exported `required` set; a property that is directly a `$ref` into the
shared definitions is replaced by the referenced body, verbatim; a
property with no top-level `$ref` key is left untouched (so references
nested deeper inside it stay); and — concretely — a chain
`x -> A -> B` is flattened only one level, leaving `x` pointing at the
unresolved reference to `B`. -/
theorem claim8_validated_record_refs :
    (∀ (s : PydanticSchema) (j : JVal), get_type_info (.pydantic s) = .ok j →
        objLookup j "properties" = some (.obj (flattenProps s.defs s.properties)) ∧
        objLookup j "required" = some (.arr (s.required.map JVal.str))) ∧
    (∀ (defs : List (String × JVal)) (v : JVal) (path : String) (body : JVal),
        objLookup v "$ref" = some (.str path) →
        defs.lookup (lastSegment path) = some body →
        inlineRef defs v = body) ∧
    (∀ (defs : List (String × JVal)) (v : JVal),
        objLookup v "$ref" = none → inlineRef defs v = v) ∧
    get_type_info (.pydantic ⟨[("x", .obj [("$ref", .str "#/$defs/A")])], ["x"],
        [("A", .obj [("$ref", .str "#/$defs/B")]),
         ("B", .obj [("type", .str "integer")])]⟩)
      = .ok (.obj
          [("type", .str "object"),
           ("properties", .obj [("x", .obj [("$ref", .str "#/$defs/B")])]),
           ("required", .arr [.str "x"]),
           ("additionalProperties", .bool false)]) := by
  refine ⟨?_, ?_, ?_, rfl⟩
  · intro s j h
    have hj : j = resolvePydantic s := by
      rw [get_type_info] at h
      simpa using h.symm
    subst hj
    exact ⟨rfl, rfl⟩
  · intro defs v path body hv hd
    cases v <;> simp [objLookup] at hv
    case obj entries =>
      simp [inlineRef, hv, hd]
  · intro defs v hv
    cases v <;> try rfl
    simp only [objLookup] at hv
    simp [inlineRef, hv]

/-- Witness for C8 at concrete inputs: one direct reference inlined,
one nested reference left alone. -/
theorem claim8_validated_record_refs_witness :
    inlineRef [("A", .obj [("type", .str "integer")])]
        (.obj [("$ref", .str "#/$defs/A")])
      = .obj [("type", .str "integer")] ∧
    inlineRef [("A", .obj [("type", .str "integer")])]
        (.obj [("items", .obj [("$ref", .str "#/$defs/A")])])
      = .obj [("items", .obj [("$ref", .str "#/$defs/A")])] :=
  ⟨claim8_validated_record_refs.2.1 [("A", .obj [("type", .str "integer")])]
      (.obj [("$ref", .str "#/$defs/A")]) "#/$defs/A" (.obj [("type", .str "integer")]) rfl rfl,
   claim8_validated_record_refs.2.2.1 [("A", .obj [("type", .str "integer")])]
      (.obj [("items", .obj [("$ref", .str "#/$defs/A")])]) rfl⟩

/-- C9: every record-kind annotation — pydantic model, dataclass or
TypedDict — resolves to an object node that carries
`additionalProperties: false`. -/
theorem claim9_additional_properties_false :
    ∀ (a : PyType) (j : JVal), isRecordLike a = true → get_type_info a = .ok j →
      objLookup j "additionalProperties" = some (.bool false) := by
  intro a j hr h
  cases a <;> try simp [isRecordLike] at hr
  case pydantic s =>
    have hj : j = resolvePydantic s := by
      rw [get_type_info] at h
      simpa using h.symm
    subst hj
    rfl
  case dataclass fs =>
    cases hp : resolveFields fs with
    | error e =>
        rw [get_type_info, hp] at h
        exact absurd h (by simp [error_bind])
    | ok props =>
        rw [get_type_info, hp] at h
        have hj := (by simpa [ok_bind, pure_eq_ok] using h : _ = j)
        subst hj
        rfl
  case typedDict annots req =>
    cases hp : resolveAnnots annots with
    | error e =>
        rw [get_type_info, hp] at h
        exact absurd h (by simp [error_bind])
    | ok props =>
        rw [get_type_info, hp] at h
        have hj := (by simpa [ok_bind, pure_eq_ok] using h : _ = j)
        subst hj
        rfl

/-- Witness for C9 at a concrete input: an empty pydantic model. -/
theorem claim9_additional_properties_false_witness :
    objLookup (.obj
        [("type", .str "object"), ("properties", .obj []),
         ("required", .arr []), ("additionalProperties", .bool false)])
      "additionalProperties" = some (.bool false) :=
  claim9_additional_properties_false (.pydantic ⟨[], [], []⟩)
    (.obj [("type", .str "object"), ("properties", .obj []),
           ("required", .arr []), ("additionalProperties", .bool false)]) rfl rfl

/-- C10: the resolver is deterministic, and the schema the compiler
stores for a non-reserved parameter is exactly the fresh second
resolution of its annotation — the `additionalProperties` deletion of
`util.py` line 391 only touches the discarded first copy, as the
concrete `Dict[str, int]` parameter shows: its advertised schema keeps
its `additionalProperties` member. -/
theorem claim10_stored_schema_is_fresh_resolution :
    (∀ a : PyType, get_type_info a = get_type_info a) ∧
    (∀ (f : PyCallable) (j : JVal) (p : Param) (s : JVal),
        function_to_json f = .ok j → p ∈ f.params → p.name ≠ "context_variables" →
        (f.params.map Param.name).Nodup → get_type_info p.ann = .ok s →
        descParamSchema j p.name = some s) ∧
    (function_to_json ⟨"g", none, [⟨"m", .pyDict .pyStr .pyInt, false⟩]⟩).toOption.bind
        (fun j => descParamSchema j "m")
      = some (.obj [("type", .str "object"),
          ("additionalProperties", .obj [("type", .str "integer")])]) := by
  refine ⟨fun a => rfl, ?_, rfl⟩
  intro f j p s h hp hpn hnd hres
  obtain ⟨props, hc, rfl⟩ := function_to_json_ok f j h
  exact compileParams_lookup f.params props p s hc hp hpn hnd hres

/-- Witness for C10's quantified part at a concrete callable with a
mapping-typed parameter. -/
theorem claim10_stored_schema_is_fresh_resolution_witness :
    descParamSchema ((function_to_json
        ⟨"g", none, [⟨"m", .pyDict .pyStr .pyInt, false⟩]⟩).toOption.getD .null) "m"
      = some (.obj [("type", .str "object"),
          ("additionalProperties", .obj [("type", .str "integer")])]) :=
  claim10_stored_schema_is_fresh_resolution.2.1
    ⟨"g", none, [⟨"m", .pyDict .pyStr .pyInt, false⟩]⟩
    ((function_to_json ⟨"g", none, [⟨"m", .pyDict .pyStr .pyInt, false⟩]⟩).toOption.getD .null)
    ⟨"m", .pyDict .pyStr .pyInt, false⟩
    (.obj [("type", .str "object"), ("additionalProperties", .obj [("type", .str "integer")])])
    rfl (by simp) (by simp) (by simp) rfl

end AutoAgent
